import Mathlib

/-!
Verification of the EduHub backend authentication core.

The development shallowly embeds the Python sources of the repository:
`Backend/utils.py` (input validation), `Backend/main.py` (the signup, login and
me endpoints), and `Backend/database.py` (store initialisation).  The module
`auth.py` is imported by `Backend/main.py` but is not among the sources, so the
credential hasher, the token service and the identity resolver are modelled
from the specification (sections 4.1 to 4.3); each such definition is marked
`Modelled from the spec:` in its doc comment.
-/

namespace EduHub

/-! ### Email validation, from `Backend/utils.py`, function `validate_email`.

The source runs Python `re.match` with the anchored pattern
`^[a-zA-Z0-9._%+-]+@[a-zA-Z0-9.-]+\.[a-zA-Z]{2,}$`.  The pattern body is
transliterated into a `RegularExpression Char`: a character class becomes a
finite alternation of its characters, `r+` becomes `r * r.star`, and `r{2,}`
becomes `r * r * r.star`.  Python `re.match` with this fully anchored pattern
accepts a string `s` iff the body matches all of `s`, or all of `s` minus a
single terminal newline, because the anchor `$` also matches just before a
newline that ends the string.  -/

/-- Consecutive code points `lo` to `hi` inclusive, as characters: the regex
range `lo-hi` inside a character class. -/
def rangeChars (lo hi : Nat) : List Char :=
  (List.range (hi + 1 - lo)).map fun i => Char.ofNat (lo + i)

/-- The range `a-z`. -/
def lowerAlpha : List Char := rangeChars 97 122

/-- The range `A-Z`. -/
def upperAlpha : List Char := rangeChars 65 90

/-- The range `0-9`. -/
def digitChars : List Char := rangeChars 48 57

/-- The local-part class `[a-zA-Z0-9._%+-]`. -/
def localClass : List Char :=
  lowerAlpha ++ upperAlpha ++ digitChars ++ [ '.', '_', '%', '+', '-']

/-- The domain class `[a-zA-Z0-9.-]`. -/
def domainClass : List Char :=
  lowerAlpha ++ upperAlpha ++ digitChars ++ [ '.', '-']

/-- The top-level-label class `[a-zA-Z]`. -/
def alphaClass : List Char := lowerAlpha ++ upperAlpha

/-- A character class as a regular expression: the alternation of its
characters. -/
def classRE (cs : List Char) : RegularExpression Char :=
  (cs.map RegularExpression.char).foldr (· + ·) 0

/-- One-or-more repetition `r+`, written `r r*`. -/
def onePlus (r : RegularExpression Char) : RegularExpression Char := r * r.star

/-- The pattern body `[a-zA-Z0-9._%+-]+@[a-zA-Z0-9.-]+\.[a-zA-Z]{2,}` of
`validate_email`. -/
def emailPattern : RegularExpression Char :=
  onePlus (classRE localClass) * RegularExpression.char '@' *
    onePlus (classRE domainClass) * RegularExpression.char '.' *
    (classRE alphaClass * classRE alphaClass * (classRE alphaClass).star)

/-- Python `re.match` of an `^`- and `$`-anchored pattern: the body must cover
the whole input, where `$` also matches just before a single newline ending the
input. -/
def pyMatchFull (r : RegularExpression Char) (l : List Char) : Bool :=
  r.rmatch l ||
    match l.getLast? with
    | some c => c == '\n' && r.rmatch l.dropLast
    | none => false

/-- Embeds `utils.validate_email`: `re.match` of the anchored pattern against
the email, `True` iff a match object is returned. -/
def validate_email (email : String) : Bool :=
  pyMatchFull emailPattern email.data

/-- Membership of a character in a class, as a Boolean. -/
def inClass (cs : List Char) (c : Char) : Bool := cs.contains c

/-- Structural check of the domain part `[a-zA-Z0-9.-]+\.[a-zA-Z]{2,}`: split
at the last dot; before it a nonempty stem over the domain class, after it at
least two ASCII letters. -/
def domainOk (d : List Char) : Bool :=
  match d.reverse.dropWhile (fun c => c != '.') with
  | [] => false
  | _ :: revStem =>
      let tld := (d.reverse.takeWhile fun c => c != '.').reverse
      let stem := revStem.reverse
      !stem.isEmpty && stem.all (inClass domainClass) &&
        decide (2 ≤ tld.length) && tld.all (inClass alphaClass)

/-- Structural check of the whole pattern body: a nonempty local part over its
class, then `@`, then a valid domain. -/
def emailCore (l : List Char) : Bool :=
  match l.dropWhile (fun c => c != '@') with
  | [] => false
  | _ :: domain =>
      let lp := l.takeWhile fun c => c != '@'
      !lp.isEmpty && lp.all (inClass localClass) && domainOk domain

/-- Acceptance set of `validate_email`, structurally: the core pattern,
possibly followed by one terminal newline. -/
def emailAccept (l : List Char) : Bool :=
  emailCore l ||
    match l.getLast? with
    | some c => c == '\n' && emailCore l.dropLast
    | none => false

/-- The language of the pattern body as an explicit decomposition: local part,
`@`, domain stem, dot, top-level label of at least two letters. -/
def emailShape (l : List Char) : Prop :=
  ∃ a b t : List Char,
    l = a ++ '@' :: (b ++ '.' :: t)
      ∧ a ≠ [] ∧ (∀ c ∈ a, c ∈ localClass)
      ∧ b ≠ [] ∧ (∀ c ∈ b, c ∈ domainClass)
      ∧ 2 ≤ t.length ∧ (∀ c ∈ t, c ∈ alphaClass)

/-- Exact acceptance condition of `validate_email`: the pattern body matches
the whole string, or the string ends in one newline and the body matches the
rest. -/
def acceptedShape (s : String) : Prop :=
  emailShape s.data ∨ (s.data.getLast? = some '\n' ∧ emailShape s.data.dropLast)

/-- Modelled from the spec: the claimed acceptance set of the email check, read
literally from the words `ASCII local-part, @, then a domain whose
dot-separated top-level label has length at least 2`. -/
def specEmailForm (s : String) : Prop :=
  ∃ lp dom : List Char,
    s.data = lp ++ '@' :: dom
      ∧ lp ≠ [] ∧ (∀ c ∈ lp, c.toNat < 128)
      ∧ ∃ stem tld : List Char,
          dom = stem ++ '.' :: tld ∧ '.' ∉ tld ∧ 2 ≤ tld.length

/-! ### Password validation, from `Backend/utils.py`, function
`validate_password`. -/

/-- Embeds `utils.validate_password`: returns `(is_valid, error_message)`;
passwords shorter than 6 characters are rejected with a human-readable
reason. -/
def validate_password (password : String) : Bool × Option String :=
  if password.length < 6 then
    (false, some "Password must be at least 6 characters long")
  else
    (true, none)

/-! ### Token service.

Modelled from the spec: `auth.py` is imported by `Backend/main.py` but absent
from the sources; section 4.2 of the spec defines `issue` and `verify`. -/

/-- The authentication error taxonomy of spec section 7. -/
inductive AuthError where
  | missingCredential
  | malformed
  | badSignature
  | expired
  | unknownSubject
  | invalidCredentials
  deriving DecidableEq

/-- The claims embedded in a token: subject identity plus absolute expiry. -/
structure TokenClaims where
  subject : String
  expiry : Nat
  deriving DecidableEq

/-- Modelled from the spec: a token is a signed encoded string; undecodable
strings are `raw`, decodable ones carry a subject, an absolute expiry and a
signature. -/
inductive Token where
  | raw (s : String)
  | signedToken (subject : String) (expiry : Nat) (sig : Nat)
  deriving DecidableEq

/-- Modelled from the spec: a deterministic MAC over the payload, keyed by the
process-wide secret. -/
def sign (secret : Nat) (subject : String) (expiry : Nat) : Nat :=
  subject.data.foldl (fun a c => a * 31 + c.toNat)
    (secret * 1000003 + expiry * 257 + 7)

/-- Modelled from the spec: `issue` embeds the subject and an absolute expiry
`now + ttl`, signed with the secret. -/
def issue (secret now : Nat) (subject : String) (ttl : Nat) : Token :=
  .signedToken subject (now + ttl) (sign secret subject (now + ttl))

/-- Modelled from the spec: `verify` fails `Malformed` on an undecodable token,
`BadSignature` on a signature mismatch, `Expired` when expiry < now, and
otherwise returns the embedded claims. -/
def verify (secret now : Nat) : Token → Except AuthError TokenClaims
  | .raw _ => .error .malformed
  | .signedToken s e g =>
      if g ≠ sign secret s e then .error .badSignature
      else if e < now then .error .expired
      else .ok ⟨s, e⟩

/-- The signature of a token agrees with the secret; an undecodable token has
no verifiable signature. -/
def sigOk (secret : Nat) : Token → Prop
  | .raw _ => False
  | .signedToken s e g => g = sign secret s e

/-- The embedded expiry has not passed: the negation of the expiry < now
failure condition. -/
def unexpired (now : Nat) : Token → Prop
  | .raw _ => True
  | .signedToken _ e _ => now ≤ e

/-- The configured token lifetime, `ACCESS_TOKEN_EXPIRE_MINUTES` of `auth.py`;
the spec fixes the default at about 30 minutes, time units are abstract
here. -/
def tokenTtl : Nat := 30

/-! ### Credential hasher.

Modelled from the spec, section 4.1: `auth.py` is absent from the sources.  The
random salt is elided — the model hash is deterministic — but the verification
relation of the spec is preserved: a password verifies against exactly the
hashes produced from it. -/

/-- Modelled from the spec: the one-way password hash. -/
def hashPw (password : String) : String := "bcrypt$" ++ password

/-- Modelled from the spec: whether a password matches a stored hash. -/
def verifyPw (password stored : String) : Bool := stored == hashPw password

/-! ### User store and endpoints, from `Backend/main.py` and
`Backend/database.py`. -/

/-- A stored user document: the fields written by the signup handler plus the
store-assigned identifier. -/
structure User where
  id : String
  email : String
  username : String
  hashed_password : String
  created_at : Nat
  deriving DecidableEq

/-- The public user view returned by the endpoints, `UserResponse` of
`Backend/main.py`: exactly id, email, username and creation timestamp. -/
structure UserResponse where
  id : String
  email : String
  username : String
  created_at : String
  deriving DecidableEq

/-- Rendering of the creation timestamp, abstracting
`created_at.isoformat()`. -/
def isoformat (n : Nat) : String := toString n

/-- Builds the public view from a stored user, as the three endpoints do. -/
def userResponse (u : User) : UserResponse :=
  ⟨u.id, u.email, u.username, isoformat u.created_at⟩

/-- The `TokenResponse` model of `Backend/main.py`. -/
structure TokenResponse where
  access_token : Token
  token_type : String
  user : UserResponse
  deriving DecidableEq

/-- A server-side store failure: violation of a unique index by an insert. -/
inductive StoreError where
  | duplicateKey
  deriving DecidableEq

/-- Outcome of a handler: a structured HTTP error response, a success
response, or an exception that escaped the handler uncaught. -/
inductive HandlerResult where
  | httpError (statusCode : Nat) (detail : String)
  | ok (resp : TokenResponse)
  | raised (e : StoreError)
  deriving DecidableEq

/-- Lookup of a user by email, `find_one({email: ...})`. -/
def findByEmail (store : List User) (email : String) : Option User :=
  store.find? fun u => u.email == email

/-- The existence pre-check of the signup handler,
`find_one({$or: [{email}, {username}]})`. -/
def dupExists (store : List User) (email username : String) : Bool :=
  store.any fun u => u.email == email || u.username == username

/-- Embeds `insert_one` against a store carrying the unique indexes on `email`
and `username` created by `database.init_db`: the insert fails server-side with
a duplicate-key error when either index is violated, otherwise the document is
appended and assigned the next opaque identifier. -/
def insertOne (store : List User) (email username hpw : String) (created : Nat) :
    Except StoreError (List User × User) :=
  if dupExists store email username then .error .duplicateKey
  else
    let u : User := ⟨toString store.length, email, username, hpw, created⟩
    .ok (store ++ [u], u)

/-- The signup request body. -/
structure SignupRequest where
  email : String
  username : String
  password : String

/-- Embeds the signup handler of `Backend/main.py`.  The existence pre-check
runs against `checkStore` and the insert against `insertStore`; the two differ
exactly when a concurrent write lands between the two store round-trips, and
coincide in a sequential run.  The handler wraps `insert_one` in no exception
handler, so a failing insert escapes as `raised`. -/
def signupStep (checkStore insertStore : List User) (secret now : Nat)
    (req : SignupRequest) : HandlerResult × List User :=
  if validate_email req.email = false then
    (.httpError 400 "Invalid email format", insertStore)
  else if (validate_password req.password).1 = false then
    (.httpError 400 ((validate_password req.password).2.getD ""), insertStore)
  else if dupExists checkStore req.email req.username then
    (.httpError 400 "Email or username already registered", insertStore)
  else
    match insertOne insertStore req.email req.username (hashPw req.password) now with
    | .error e => (.raised e, insertStore)
    | .ok (store2, u) =>
        (.ok ⟨issue secret now u.email tokenTtl, "bearer", userResponse u⟩, store2)

/-- The signup handler in a sequential run: pre-check and insert see the same
store state. -/
def signup (store : List User) (secret now : Nat) (req : SignupRequest) :
    HandlerResult × List User :=
  signupStep store store secret now req

/-- The login request body. -/
structure LoginRequest where
  email : String
  password : String

/-- Modelled from the spec: `authenticate_user` of the absent `auth.py`, spec
section 4.4 login steps 1 and 2: look up by email, then verify the password;
`none` both when the user is absent and when the password does not match. -/
def authenticate_user (store : List User) (email password : String) : Option User :=
  match findByEmail store email with
  | none => none
  | some u => if verifyPw password u.hashed_password then some u else none

/-- Embeds the login handler of `Backend/main.py`: a falsy `authenticate_user`
result becomes the single 401 response, a user becomes a token response. -/
def login (store : List User) (secret now : Nat) (req : LoginRequest) :
    HandlerResult :=
  match authenticate_user store req.email req.password with
  | none => .httpError 401 "Incorrect email or password"
  | some u => .ok ⟨issue secret now u.email tokenTtl, "bearer", userResponse u⟩

/-- Modelled from the spec: the identity resolver of section 4.3
(`get_current_user` of the absent `auth.py`): missing credential, token
verification with its errors propagated unchanged, then lookup by the token
subject. -/
def resolve (store : List User) (secret now : Nat) :
    Option Token → Except AuthError User
  | none => .error .missingCredential
  | some t =>
      match verify secret now t with
      | .error e => .error e
      | .ok c =>
          match findByEmail store c.subject with
          | none => .error .unknownSubject
          | some u => .ok u

/-- Embeds the me handler of `Backend/main.py`: the public view of the resolved
user. -/
def me (store : List User) (secret now : Nat) (tok : Option Token) :
    Except AuthError UserResponse :=
  match resolve store secret now tok with
  | .error e => .error e
  | .ok u => .ok (userResponse u)

/-! ### Store initialisation, from `Backend/database.py`, function
`init_db`. -/

/-- Outcomes of the store round-trips attempted inside the `try` block of
`init_db`, in source order. -/
structure InitOps where
  emailIdx : Except String Unit
  usernameIdx : Except String Unit
  codeIdx : Except String Unit
  subjectIdIdx : Except String Unit
  uploadedByIdx : Except String Unit
  countSubjects : Except String Nat
  seedSubjects : Except String Unit

/-- The observable state established by `init_db`: which unique indexes exist,
and whether the default subjects were seeded in this run. -/
structure InitState where
  emailUnique : Bool
  usernameUnique : Bool
  codeUnique : Bool
  subjectsSeeded : Bool
  deriving DecidableEq

/-- The message printed by the catch-all handler of `init_db`. -/
def initFailureMsg (e : String) : String := "❌ Error initializing MongoDB: " ++ e

/-- Embeds `database.init_db`: the steps run in order inside one `try` block;
the first failure skips the rest and is caught by the bare
`except Exception`, which prints the error and returns normally.  The result is
the state reached plus the printed error message, if any; the function is
total — no exception ever escapes. -/
def init_db (ops : InitOps) : InitState × Option String :=
  match ops.emailIdx with
  | .error e => (⟨false, false, false, false⟩, some (initFailureMsg e))
  | .ok _ =>
    match ops.usernameIdx with
    | .error e => (⟨true, false, false, false⟩, some (initFailureMsg e))
    | .ok _ =>
      match ops.codeIdx with
      | .error e => (⟨true, true, false, false⟩, some (initFailureMsg e))
      | .ok _ =>
        match ops.subjectIdIdx with
        | .error e => (⟨true, true, true, false⟩, some (initFailureMsg e))
        | .ok _ =>
          match ops.uploadedByIdx with
          | .error e => (⟨true, true, true, false⟩, some (initFailureMsg e))
          | .ok _ =>
            match ops.countSubjects with
            | .error e => (⟨true, true, true, false⟩, some (initFailureMsg e))
            | .ok n =>
              if n == 0 then
                match ops.seedSubjects with
                | .error e => (⟨true, true, true, false⟩, some (initFailureMsg e))
                | .ok _ => (⟨true, true, true, true⟩, none)
              else (⟨true, true, true, false⟩, none)

/-- Whether an outcome is a success. -/
def exceptOk {α : Type} : Except String α → Bool
  | .ok _ => true
  | .error _ => false

/-- Whether every step of the `try` block of `init_db` succeeds, the seeding
step counting only when the subject count is zero. -/
def initBodyOk (ops : InitOps) : Bool :=
  exceptOk ops.emailIdx && exceptOk ops.usernameIdx && exceptOk ops.codeIdx &&
    exceptOk ops.subjectIdIdx && exceptOk ops.uploadedByIdx &&
    match ops.countSubjects with
    | .error _ => false
    | .ok n => if n == 0 then exceptOk ops.seedSubjects else true

/-! ### Characterisation of the email regular expression. -/

theorem inClass_iff (cs : List Char) (c : Char) : inClass cs c = true ↔ c ∈ cs := by
  simp [inClass]

theorem classRE_rmatch (cs x : List Char) :
    (classRE cs).rmatch x = true ↔ ∃ c ∈ cs, x = [c] := by
  induction cs with
  | nil => simp [classRE]
  | cons c cs ih =>
      have h : classRE (c :: cs) = RegularExpression.char c + classRE cs := rfl
      rw [h]
      rw [show ((RegularExpression.char c + classRE cs).rmatch x = true) ↔
        ((RegularExpression.char c).rmatch x ∨ (classRE cs).rmatch x) from
        RegularExpression.add_rmatch_iff _ _ x]
      rw [show ((RegularExpression.char c).rmatch x = true) ↔ x = [c] from
        RegularExpression.char_rmatch_iff c x]
      rw [ih]
      simp only [List.mem_cons]
      constructor
      · rintro (rfl | ⟨d, hd, rfl⟩)
        · exact ⟨c, Or.inl rfl, rfl⟩
        · exact ⟨d, Or.inr hd, rfl⟩
      · rintro ⟨d, hd | hd, rfl⟩
        · exact Or.inl (by rw [hd])
        · exact Or.inr ⟨d, hd, rfl⟩

theorem starClass_rmatch (cs x : List Char) :
    (classRE cs).star.rmatch x = true ↔ ∀ c ∈ x, c ∈ cs := by
  rw [show ((classRE cs).star.rmatch x = true) ↔
      ∃ S : List (List Char), x = S.flatten ∧ ∀ t ∈ S, t ≠ [] ∧ (classRE cs).rmatch t from
    RegularExpression.star_rmatch_iff _ x]
  constructor
  · rintro ⟨S, rfl, hS⟩
    intro c hc
    rcases List.mem_flatten.mp hc with ⟨t, ht, hct⟩
    rcases (classRE_rmatch cs t).mp (hS t ht).2 with ⟨d, hd, rfl⟩
    rcases List.mem_singleton.mp hct with rfl
    exact hd
  · intro h
    refine ⟨x.map fun c => [c], ?_, ?_⟩
    · induction x with
      | nil => rfl
      | cons c x ih => simpa using ih fun d hd => h d (List.mem_cons_of_mem c hd)
    · intro t ht
      rcases List.mem_map.mp ht with ⟨c, hc, rfl⟩
      exact ⟨by simp, (classRE_rmatch cs [c]).mpr ⟨c, h c hc, rfl⟩⟩

theorem onePlusClass_rmatch (cs x : List Char) :
    (onePlus (classRE cs)).rmatch x = true ↔ x ≠ [] ∧ ∀ c ∈ x, c ∈ cs := by
  rw [onePlus]
  rw [show ((classRE cs * (classRE cs).star).rmatch x = true) ↔
      ∃ t u : List Char, x = t ++ u ∧ (classRE cs).rmatch t ∧ (classRE cs).star.rmatch u from
    RegularExpression.mul_rmatch_iff _ _ x]
  constructor
  · rintro ⟨t, u, rfl, ht, hu⟩
    rcases (classRE_rmatch cs t).mp ht with ⟨c, hc, rfl⟩
    refine ⟨by simp, ?_⟩
    intro d hd
    rcases List.mem_append.mp hd with hd | hd
    · rcases List.mem_singleton.mp hd with rfl; exact hc
    · exact (starClass_rmatch cs u).mp hu d hd
  · rintro ⟨hne, h⟩
    cases x with
    | nil => exact absurd rfl hne
    | cons c x =>
        refine ⟨[c], x, rfl, (classRE_rmatch cs [c]).mpr ⟨c, h c (by simp), rfl⟩, ?_⟩
        exact (starClass_rmatch cs x).mpr fun d hd => h d (List.mem_cons_of_mem c hd)

theorem twoPlusClass_rmatch (cs x : List Char) :
    ((classRE cs * classRE cs * (classRE cs).star).rmatch x = true) ↔
      2 ≤ x.length ∧ ∀ c ∈ x, c ∈ cs := by
  rw [show ((classRE cs * classRE cs * (classRE cs).star).rmatch x = true) ↔
      ∃ t u : List Char, x = t ++ u ∧ (classRE cs * classRE cs).rmatch t ∧
        (classRE cs).star.rmatch u from
    RegularExpression.mul_rmatch_iff _ _ x]
  constructor
  · rintro ⟨t, u, rfl, ht, hu⟩
    rcases (RegularExpression.mul_rmatch_iff _ _ t).mp ht with ⟨t1, t2, rfl, h1, h2⟩
    rcases (classRE_rmatch cs t1).mp h1 with ⟨c1, hc1, rfl⟩
    rcases (classRE_rmatch cs t2).mp h2 with ⟨c2, hc2, rfl⟩
    refine ⟨by simp, ?_⟩
    intro d hd
    simp only [List.append_assoc, List.mem_append, List.mem_singleton] at hd
    rcases hd with rfl | rfl | hd
    · exact hc1
    · exact hc2
    · exact (starClass_rmatch cs u).mp hu d hd
  · rintro ⟨hlen, h⟩
    match x with
    | c1 :: c2 :: rest =>
        refine ⟨[c1, c2], rest, rfl, ?_, ?_⟩
        · exact (RegularExpression.mul_rmatch_iff _ _ _).mpr
            ⟨[c1], [c2], rfl, (classRE_rmatch cs [c1]).mpr ⟨c1, h c1 (by simp), rfl⟩,
              (classRE_rmatch cs [c2]).mpr ⟨c2, h c2 (by simp), rfl⟩⟩
        · exact (starClass_rmatch cs rest).mpr fun d hd => h d (by simp [hd])

theorem emailPattern_rmatch (x : List Char) :
    emailPattern.rmatch x = true ↔ emailShape x := by
  have hmul : ∀ (P Q : RegularExpression Char) (y : List Char),
      ((P * Q).rmatch y = true) ↔
        ∃ t u : List Char, y = t ++ u ∧ P.rmatch t ∧ Q.rmatch u :=
    fun P Q y => RegularExpression.mul_rmatch_iff P Q y
  have hchar : ∀ (c : Char) (y : List Char),
      ((RegularExpression.char c).rmatch y = true) ↔ y = [c] :=
    fun c y => RegularExpression.char_rmatch_iff c y
  constructor
  · intro h
    rcases (hmul _ _ x).mp h with ⟨y4, t, rfl, h4, ht⟩
    rcases (hmul _ _ y4).mp h4 with ⟨y3, d, rfl, h3, hd⟩
    rcases (hmul _ _ y3).mp h3 with ⟨y2, b, rfl, h2, hb⟩
    rcases (hmul _ _ y2).mp h2 with ⟨a, a1, rfl, ha, ha1⟩
    rcases (hchar _ _).mp ha1 with rfl
    rcases (hchar _ _).mp hd with rfl
    rcases (onePlusClass_rmatch _ _).mp ha with ⟨hane, hac⟩
    rcases (onePlusClass_rmatch _ _).mp hb with ⟨hbne, hbc⟩
    rcases (twoPlusClass_rmatch _ _).mp ht with ⟨htl, htc⟩
    exact ⟨a, b, t, by simp, hane, hac, hbne, hbc, htl, htc⟩
  · rintro ⟨a, b, t, rfl, hane, hac, hbne, hbc, htl, htc⟩
    apply (hmul _ _ _).mpr
    refine ⟨(a ++ '@' :: b) ++ [ '.'], t, by simp, ?_,
      (twoPlusClass_rmatch _ _).mpr ⟨htl, htc⟩⟩
    apply (hmul _ _ _).mpr
    refine ⟨a ++ '@' :: b, [ '.'], rfl, ?_, (hchar _ _).mpr rfl⟩
    apply (hmul _ _ _).mpr
    refine ⟨a ++ [ '@'], b, by simp, ?_, (onePlusClass_rmatch _ _).mpr ⟨hbne, hbc⟩⟩
    apply (hmul _ _ _).mpr
    exact ⟨a, [ '@'], rfl, (onePlusClass_rmatch _ _).mpr ⟨hane, hac⟩, (hchar _ _).mpr rfl⟩

theorem takeDropSplit (p : Char → Bool) (a : List Char) (c : Char) (r : List Char)
    (ha : ∀ x ∈ a, p x = true) (hc : p c = false) :
    (a ++ c :: r).takeWhile p = a ∧ (a ++ c :: r).dropWhile p = c :: r := by
  induction a with
  | nil => simp [List.takeWhile_cons, List.dropWhile_cons, hc]
  | cons x xs ih =>
      have hx : p x = true := ha x (by simp)
      have h2 := ih fun y hy => ha y (by simp [hy])
      simp [List.takeWhile_cons, List.dropWhile_cons, hx, h2.1, h2.2]

theorem dropWhileHeadFalse (p : Char → Bool) :
    ∀ (l : List Char) (c : Char) (r : List Char), l.dropWhile p = c :: r → p c = false := by
  intro l
  induction l with
  | nil => intro c r h; simp [List.dropWhile] at h
  | cons x xs ih =>
      intro c r h
      by_cases hx : p x = true
      · rw [List.dropWhile_cons, if_pos hx] at h
        exact ih c r h
      · rw [List.dropWhile_cons, if_neg hx] at h
        rcases h with ⟨rfl, rfl⟩
        simpa using hx

theorem atsign_notin_localClass : '@' ∉ localClass := by decide

theorem dot_notin_alphaClass : '.' ∉ alphaClass := by decide

theorem emailCore_nil (l : List Char) (hd : l.dropWhile (fun c => c != '@') = []) :
    emailCore l = false := by
  unfold emailCore
  rw [hd]

theorem emailCore_cons (l : List Char) (hc : Char) (domain : List Char)
    (hd : l.dropWhile (fun c => c != '@') = hc :: domain) :
    emailCore l = (!(l.takeWhile fun c => c != '@').isEmpty &&
      (l.takeWhile fun c => c != '@').all (inClass localClass) && domainOk domain) := by
  unfold emailCore
  rw [hd]

theorem domainOk_nil (d : List Char)
    (hr : d.reverse.dropWhile (fun c => c != '.') = []) : domainOk d = false := by
  unfold domainOk
  rw [hr]

theorem domainOk_cons (d : List Char) (dc : Char) (revStem : List Char)
    (hr : d.reverse.dropWhile (fun c => c != '.') = dc :: revStem) :
    domainOk d = (!revStem.reverse.isEmpty && revStem.reverse.all (inClass domainClass) &&
      decide (2 ≤ (d.reverse.takeWhile fun c => c != '.').reverse.length) &&
      (d.reverse.takeWhile fun c => c != '.').reverse.all (inClass alphaClass)) := by
  unfold domainOk
  rw [hr]

theorem bneCharFalse (a b : Char) (h : (a != b) = false) : a = b := by
  by_contra hne
  rw [bne_iff_ne.mpr hne] at h
  exact absurd h (by simp)

theorem emailCore_iff (l : List Char) : emailCore l = true ↔ emailShape l := by
  constructor
  · intro h
    cases hd : l.dropWhile (fun c => c != '@') with
    | nil => rw [emailCore_nil l hd] at h; exact absurd h (by simp)
    | cons hc domain =>
        rw [emailCore_cons l hc domain hd] at h
        have h3 : (!(l.takeWhile fun c => c != '@').isEmpty) = true ∧
            ((l.takeWhile fun c => c != '@').all (inClass localClass)) = true ∧
            domainOk domain = true := by
          simpa [Bool.and_eq_true, and_assoc] using h
        have hcAt : hc = '@' := bneCharFalse hc '@' (dropWhileHeadFalse _ l hc domain hd)
        subst hcAt
        have hsplit : l = (l.takeWhile fun c => c != '@') ++ '@' :: domain := by
          conv_lhs => rw [← List.takeWhile_append_dropWhile
            (p := fun c => c != '@') (l := l), hd]
        obtain ⟨lp, hlp⟩ : ∃ lp, (l.takeWhile fun c => c != '@') = lp := ⟨_, rfl⟩
        rw [hlp] at h3 hsplit
        obtain ⟨hne, hall, hdom⟩ := h3
        cases hr : domain.reverse.dropWhile (fun c => c != '.') with
        | nil => rw [domainOk_nil domain hr] at hdom; exact absurd hdom (by simp)
        | cons dc revStem =>
            rw [domainOk_cons domain dc revStem hr] at hdom
            have hdcDot : dc = '.' :=
              bneCharFalse dc '.' (dropWhileHeadFalse _ domain.reverse dc revStem hr)
            subst hdcDot
            have hdsplit : domain.reverse =
                (domain.reverse.takeWhile fun c => c != '.') ++ '.' :: revStem := by
              conv_lhs => rw [← List.takeWhile_append_dropWhile
                (p := fun c => c != '.') (l := domain.reverse), hr]
            obtain ⟨revTld, hrt⟩ :
                ∃ x, (domain.reverse.takeWhile fun c => c != '.') = x := ⟨_, rfl⟩
            rw [hrt] at hdom hdsplit
            have h4 : (!revStem.reverse.isEmpty) = true ∧
                (revStem.reverse.all (inClass domainClass)) = true ∧
                (decide (2 ≤ revTld.reverse.length)) = true ∧
                (revTld.reverse.all (inClass alphaClass)) = true := by
              simpa [Bool.and_eq_true, and_assoc] using hdom
            obtain ⟨hsne, hsall, htl, htall⟩ := h4
            have hdomain : domain = revStem.reverse ++ '.' :: revTld.reverse := by
              have h5 : domain = (revTld ++ '.' :: revStem).reverse := by
                rw [← hdsplit, List.reverse_reverse]
              have h6 : (revTld ++ '.' :: revStem).reverse =
                  revStem.reverse ++ '.' :: revTld.reverse := by simp
              exact h5.trans h6
            refine ⟨lp, revStem.reverse, revTld.reverse, ?_, ?_, ?_, ?_, ?_, ?_, ?_⟩
            · rw [hsplit, hdomain]
            · simpa using hne
            · exact fun c hcm => (inClass_iff _ _).mp (List.all_eq_true.mp hall c hcm)
            · simpa using hsne
            · exact fun c hcm => (inClass_iff _ _).mp (List.all_eq_true.mp hsall c hcm)
            · simpa using htl
            · exact fun c hcm => (inClass_iff _ _).mp (List.all_eq_true.mp htall c hcm)
  · rintro ⟨a, b, t, rfl, hane, hac, hbne, hbc, htl, htc⟩
    have hsplitA := takeDropSplit (fun c => c != '@') a '@' (b ++ '.' :: t)
      (fun x hx => bne_iff_ne.mpr fun he => atsign_notin_localClass (he ▸ hac x hx))
      (by simp)
    rw [emailCore_cons _ '@' (b ++ '.' :: t) hsplitA.2, hsplitA.1]
    have hrev : (b ++ '.' :: t).reverse = t.reverse ++ '.' :: b.reverse := by
      simp
    have hsplitD := takeDropSplit (fun c => c != '.') t.reverse '.' b.reverse
      (fun x hx => bne_iff_ne.mpr fun he =>
        dot_notin_alphaClass (he ▸ htc x (List.mem_reverse.mp hx)))
      (by simp)
    rw [domainOk_cons (b ++ '.' :: t) '.' b.reverse (by rw [hrev]; exact hsplitD.2)]
    rw [hrev, hsplitD.1]
    simp only [List.reverse_reverse, Bool.and_eq_true]
    refine ⟨⟨?_, ?_⟩, ⟨⟨?_, ?_⟩, ?_⟩, ?_⟩
    · simpa using hane
    · exact List.all_eq_true.mpr fun c hcm => (inClass_iff _ _).mpr (hac c hcm)
    · simpa using hbne
    · exact List.all_eq_true.mpr fun c hcm => (inClass_iff _ _).mpr (hbc c hcm)
    · simpa using htl
    · exact List.all_eq_true.mpr fun c hcm => (inClass_iff _ _).mpr (htc c hcm)

theorem rmatch_eq_emailCore (l : List Char) : emailPattern.rmatch l = emailCore l := by
  have h := (emailPattern_rmatch l).trans (emailCore_iff l).symm
  cases hb : emailCore l
  · cases ha : emailPattern.rmatch l
    · rfl
    · exact absurd (h.mp ha) (by simp [hb])
  · exact h.mpr hb

theorem validate_email_eq (s : String) : validate_email s = emailAccept s.data := by
  simp only [validate_email, pyMatchFull, emailAccept, rmatch_eq_emailCore]

theorem validate_email_iff (s : String) : validate_email s = true ↔ acceptedShape s := by
  rw [validate_email_eq]
  unfold emailAccept acceptedShape
  cases hL : s.data.getLast? with
  | none => simp [emailCore_iff]
  | some c =>
      by_cases hc : c = '\n'
      · subst hc
        simp [emailCore_iff]
      · simp [emailCore_iff, hc]

theorem email_sample_ok : validate_email "a@x.com" = true := by
  rw [validate_email_eq]
  decide

/-! ### Claims. -/

/-- C4: a signup password shorter than 6 characters fails validation with a
human-readable reason — in particular "abc" fails — a password of exactly 6
characters ("abcdef") passes, and length at least 6 is the only condition
enforced: validation succeeds exactly on passwords of length at least 6. -/
theorem password_min_length_contract :
    (validate_password "abc").1 = false
    ∧ (validate_password "abc").2 = some "Password must be at least 6 characters long"
    ∧ (validate_password "abcdef").1 = true
    ∧ (validate_password "abcdef").2 = none
    ∧ ∀ p : String, (validate_password p).1 = true ↔ 6 ≤ p.length := by
  refine ⟨rfl, rfl, rfl, rfl, fun p => ?_⟩
  unfold validate_password
  by_cases h : p.length < 6
  · simp [h]
  · simp [h]
    omega

/-- Witness for C4 at a concrete seven-character password. -/
theorem password_min_length_contract_witness : (validate_password "abcdefg").1 = true :=
  (password_min_length_contract.2.2.2.2 "abcdefg").mpr (by decide)

/-- C2: token verification succeeds exactly when the signature verifies against
the secret and the embedded expiry has not passed; the failures are Malformed
for an undecodable token, BadSignature for a signature mismatch, and Expired
when expiry < now; success returns the embedded claims. -/
theorem token_verify_contract (secret now : Nat) (t : Token) :
    ((∃ c, verify secret now t = .ok c) ↔ sigOk secret t ∧ unexpired now t)
    ∧ (∀ s, t = .raw s → verify secret now t = .error .malformed)
    ∧ (∀ s e g, t = .signedToken s e g → g ≠ sign secret s e →
        verify secret now t = .error .badSignature)
    ∧ (∀ s e g, t = .signedToken s e g → g = sign secret s e → e < now →
        verify secret now t = .error .expired)
    ∧ (∀ c, verify secret now t = .ok c →
        t = .signedToken c.subject c.expiry (sign secret c.subject c.expiry)) := by
  cases t with
  | raw s => simp [verify, sigOk, unexpired]
  | signedToken s e g =>
      by_cases hg : g = sign secret s e
      · by_cases he : e < now
        · simp [verify, sigOk, unexpired, hg, he]
        · simp [verify, sigOk, unexpired, hg, he]
          omega
      · simp [verify, sigOk, unexpired, hg]

/-- Witness for C2: a well-signed unexpired token verifies. -/
theorem token_verify_contract_witness :
    ∃ c, verify 3 5 (Token.signedToken "a@x.com" 9 (sign 3 "a@x.com" 9)) = .ok c :=
  ((token_verify_contract 3 5 _).1).mpr ⟨rfl, by show (5 : Nat) ≤ 9; decide⟩

/-- C7: verifying a freshly issued token before its expiry succeeds and returns
the embedded claims, whose subject is the one supplied at issuance. -/
theorem issue_verify_roundtrip (secret issuedAt now ttl : Nat) (s : String)
    (h : now < issuedAt + ttl) :
    verify secret now (issue secret issuedAt s ttl) = .ok ⟨s, issuedAt + ttl⟩
    ∧ (TokenClaims.mk s (issuedAt + ttl)).subject = s := by
  refine ⟨?_, rfl⟩
  simp only [issue, verify]
  rw [if_neg (by simp), if_neg (by omega)]

/-- Witness for C7 at concrete issue and verification times. -/
theorem issue_verify_roundtrip_witness :
    verify 3 5 (issue 3 0 "a@x.com" 30) = .ok ⟨"a@x.com", 30⟩ :=
  (issue_verify_roundtrip 3 0 5 30 "a@x.com" (by decide)).1

/-- C3: a login with an email matching no stored user and a login with the email
of a stored user but a password that does not verify produce the same response:
the identical 401 error with the identical message. -/
theorem login_uniform_error (store : List User) (secret now : Nat)
    (e1 p1 e2 p2 : String) (u : User)
    (h1 : findByEmail store e1 = none)
    (h2 : findByEmail store e2 = some u)
    (h3 : verifyPw p2 u.hashed_password = false) :
    login store secret now ⟨e1, p1⟩ = login store secret now ⟨e2, p2⟩
    ∧ login store secret now ⟨e1, p1⟩
        = .httpError 401 "Incorrect email or password" := by
  simp [login, authenticate_user, h1, h2, h3]

/-- Witness for C3 on a one-user store: unknown email versus wrong password. -/
theorem login_uniform_error_witness :
    login [⟨"0", "a@x.com", "alice", hashPw "pw123456", 0⟩] 3 1 ⟨"b@x.com", "whatever"⟩
      = login [⟨"0", "a@x.com", "alice", hashPw "pw123456", 0⟩] 3 1 ⟨"a@x.com", "wrong"⟩ :=
  (login_uniform_error [⟨"0", "a@x.com", "alice", hashPw "pw123456", 0⟩] 3 1
    "b@x.com" "whatever" "a@x.com" "wrong" ⟨"0", "a@x.com", "alice", hashPw "pw123456", 0⟩
    (by decide) (by decide) (by decide)).1

/-- C9: every failure inside the try block of init_db is caught and printed and
the function returns normally — the result is total, the printed message is
absent exactly when every step succeeded — and when index creation fails the
store-level uniqueness guarantee is silently absent. -/
theorem init_db_catches_all (ops : InitOps) :
    ((init_db ops).2 = none ↔ initBodyOk ops = true)
    ∧ (∀ e, ops.emailIdx = .error e →
        init_db ops = (⟨false, false, false, false⟩, some (initFailureMsg e)))
    ∧ (∀ e, ops.usernameIdx = .error e →
        (init_db ops).1.usernameUnique = false ∧ ∃ m, (init_db ops).2 = some m) := by
  obtain ⟨f1, f2, f3, f4, f5, f6, f7⟩ := ops
  cases f1 <;> cases f2 <;> cases f3 <;> cases f4 <;> cases f5 <;> cases f7 <;>
    rcases f6 with e6 | n6 <;>
    simp [init_db, initBodyOk, exceptOk] <;>
    by_cases hn : n6 = 0 <;>
    simp [hn]

/-- Witness for C9: a failing email-index creation is caught and printed, and no
uniqueness is established. -/
theorem init_db_catches_all_witness :
    init_db ⟨.error "boom", .ok (), .ok (), .ok (), .ok (), .ok 0, .ok ()⟩
      = (⟨false, false, false, false⟩, some (initFailureMsg "boom")) :=
  (init_db_catches_all ⟨.error "boom", .ok (), .ok (), .ok (), .ok (), .ok 0, .ok ()⟩).2.1
    "boom" rfl

/-- C1: when the uniqueness pre-check passes against one store state but the
insert runs against a state already holding the email — the lost-race window —
the handler does not translate the duplicate-key failure into the conflict
response: `insert_one` is wrapped in no exception handler in the source, so the
raw store error escapes the handler instead of the 400 conflict error the spec
mandates. -/
theorem signup_insert_race_uncaught :
    signupStep [] [⟨"0", "a@x.com", "alice", hashPw "secret1", 0⟩] 3 1
        ⟨"a@x.com", "bob", "secret1"⟩
      = (.raised .duplicateKey, [⟨"0", "a@x.com", "alice", hashPw "secret1", 0⟩])
    ∧ HandlerResult.raised .duplicateKey
        ≠ .httpError 400 "Email or username already registered" := by
  refine ⟨?_, by decide⟩
  simp only [signupStep, email_sample_ok]
  decide

/-- C5 (amended): a signup request that passes the email and password
validations and collides with a stored user on email or username fails with the
conflict error and leaves the store unchanged. -/
theorem signup_conflict_after_validation (store : List User) (secret now : Nat)
    (req : SignupRequest)
    (he : validate_email req.email = true)
    (hp : (validate_password req.password).1 = true)
    (hd : dupExists store req.email req.username = true) :
    signup store secret now req
      = (.httpError 400 "Email or username already registered", store) := by
  simp [signup, signupStep, he, hp, hd]

/-- Witness for C5: signing up with the email of a stored user and a fresh
username yields the conflict error. -/
theorem signup_conflict_after_validation_witness :
    signup [⟨"0", "a@x.com", "alice", hashPw "pw123456", 0⟩] 3 1
        ⟨"a@x.com", "bob", "secret1"⟩
      = (.httpError 400 "Email or username already registered",
        [⟨"0", "a@x.com", "alice", hashPw "pw123456", 0⟩]) :=
  signup_conflict_after_validation [⟨"0", "a@x.com", "alice", hashPw "pw123456", 0⟩]
    3 1 ⟨"a@x.com", "bob", "secret1"⟩ email_sample_ok rfl (by decide)

/-- C5 (counterexample): a signup request whose email already belongs to a
stored user but whose password is three characters long fails with the password
validation error, not with the conflict error — so the claim does not hold of
every duplicate request. -/
theorem signup_duplicate_not_always_conflict :
    dupExists [⟨"0", "a@x.com", "alice", hashPw "pw123456", 0⟩] "a@x.com" "bob" = true
    ∧ signup [⟨"0", "a@x.com", "alice", hashPw "pw123456", 0⟩] 3 1
        ⟨"a@x.com", "bob", "abc"⟩
        = (.httpError 400 "Password must be at least 6 characters long",
          [⟨"0", "a@x.com", "alice", hashPw "pw123456", 0⟩])
    ∧ HandlerResult.httpError 400 "Password must be at least 6 characters long"
        ≠ .httpError 400 "Email or username already registered" := by
  refine ⟨by decide, ?_, by decide⟩
  simp only [signup, signupStep, email_sample_ok]
  decide

/-- C6: every user object in a success response of signup, login or me is the
public view of a stored user — exactly id, email, username and creation
timestamp — and that view does not depend on the stored password hash. -/
theorem responses_exclude_password_hash :
    (∀ (u : User) (h : String),
      userResponse { u with hashed_password := h } = userResponse u)
    ∧ (∀ (store : List User) (secret now : Nat) (req : SignupRequest)
        (r : TokenResponse) (store2 : List User),
        signup store secret now req = (.ok r, store2) →
        ∃ u : User, store2 = store ++ [u] ∧ r.user = userResponse u)
    ∧ (∀ (store : List User) (secret now : Nat) (req : LoginRequest)
        (r : TokenResponse),
        login store secret now req = .ok r →
        ∃ u : User, findByEmail store req.email = some u ∧ r.user = userResponse u)
    ∧ (∀ (store : List User) (secret now : Nat) (tok : Option Token)
        (r : UserResponse),
        me store secret now tok = .ok r → ∃ u : User, r = userResponse u) := by
  refine ⟨fun u h => rfl, ?_, ?_, ?_⟩
  · intro store secret now req r store2 h
    unfold signup signupStep at h
    split at h
    · simp at h
    · split at h
      · simp at h
      · split at h
        · simp at h
        · split at h
          · simp at h
          · rename_i heq
            unfold insertOne at heq
            split at heq
            · simp at heq
            · simp only [Except.ok.injEq, Prod.mk.injEq] at heq
              obtain ⟨h1, h2⟩ := heq
              subst h1
              subst h2
              simp only [Prod.mk.injEq, HandlerResult.ok.injEq] at h
              exact ⟨_, h.2.symm, by rw [← h.1]⟩
  · intro store secret now req r h
    unfold login at h
    cases hau : authenticate_user store req.email req.password with
    | none => rw [hau] at h; simp at h
    | some u =>
        rw [hau] at h
        simp only [HandlerResult.ok.injEq] at h
        unfold authenticate_user at hau
        cases hf : findByEmail store req.email with
        | none => rw [hf] at hau; simp at hau
        | some v =>
            simp only [hf] at hau
            by_cases hv : verifyPw req.password v.hashed_password = true
            · simp only [hv, if_true, Option.some.injEq] at hau
              subst hau
              exact ⟨v, rfl, by rw [← h]⟩
            · simp [hv] at hau
  · intro store secret now tok r h
    unfold me at h
    cases hr : resolve store secret now tok with
    | error e => rw [hr] at h; simp at h
    | ok u =>
        rw [hr] at h
        simp only [Except.ok.injEq] at h
        exact ⟨u, h.symm⟩

/-- Witness for C6: the login response for a stored user carries exactly the
public view of that user. -/
theorem responses_exclude_password_hash_witness :
    ∃ u : User,
      findByEmail [⟨"0", "a@x.com", "alice", hashPw "pw123456", 0⟩] "a@x.com" = some u
      ∧ (TokenResponse.mk (issue 3 1 "a@x.com" tokenTtl) "bearer"
          (userResponse ⟨"0", "a@x.com", "alice", hashPw "pw123456", 0⟩)).user
        = userResponse u :=
  responses_exclude_password_hash.2.2.1
    [⟨"0", "a@x.com", "alice", hashPw "pw123456", 0⟩] 3 1
    ⟨"a@x.com", "pw123456"⟩ _ (by decide)

/-- C8 (amended): the email check accepts exactly the strings of this shape: a
nonempty local part over `[a-zA-Z0-9._%+-]`, an at sign, a nonempty domain stem
over `[a-zA-Z0-9.-]`, a dot, and a top-level label of at least two ASCII
letters — or such a string followed by a single terminal newline; every other
string is rejected. -/
theorem email_check_exact (s : String) :
    validate_email s = true ↔ acceptedShape s :=
  validate_email_iff s

/-- Witness for C8 at a concrete accepted address. -/
theorem email_check_exact_witness : validate_email "ab@cd.ef" = true :=
  (email_check_exact "ab@cd.ef").mpr
    (Or.inl ⟨[ 'a', 'b'], [ 'c', 'd'], [ 'e', 'f'], by decide, by decide, by decide,
      by decide, by decide, by decide, by decide⟩)

/-- C8 (counterexample): the string a@b.12 has the form claimed in the spec —
ASCII local part, at sign, then a domain whose dot-separated top-level label
has length two — yet the email check rejects it, because the pattern demands a
top-level label of letters only. -/
theorem email_spec_form_mismatch :
    specEmailForm "a@b.12" ∧ validate_email "a@b.12" = false := by
  constructor
  · exact ⟨[ 'a'], [ 'b', '.', '1', '2'], by decide, by decide, by decide,
      [ 'b'], [ '1', '2'], by decide, by decide, by decide⟩
  · rw [validate_email_eq]
    decide

/-- C10 (amended): the email check accepts some strings containing a newline —
a@b.com followed by one newline is accepted — and for every accepted string
whose last character is not a newline, appending a single newline preserves
acceptance. -/
theorem trailing_newline_tolerated :
    validate_email "a@b.com\n" = true
    ∧ ∀ e : String, validate_email e = true → e.data.getLast? ≠ some '\n' →
        validate_email (e ++ "\n") = true := by
  constructor
  · rw [validate_email_eq]
    decide
  · intro e he hne
    rw [validate_email_eq] at he
    have hcore : emailCore e.data = true := by
      unfold emailAccept at he
      rw [Bool.or_eq_true] at he
      rcases he with h | h
      · exact h
      · exfalso
        cases hL : e.data.getLast? with
        | none => rw [hL] at h; simp at h
        | some c =>
            rw [hL] at h
            simp only [Bool.and_eq_true, beq_iff_eq] at h
            exact hne (by rw [hL, h.1])
    rw [validate_email_eq]
    have hdata : (e ++ "\n").data = e.data ++ [ '\n'] := by
      simp
    rw [hdata]
    unfold emailAccept
    rw [List.getLast?_concat]
    simp [List.dropLast_concat, hcore]

/-- Witness for C10: appending a newline to the accepted address a@b.com keeps
it accepted. -/
theorem trailing_newline_tolerated_witness :
    validate_email ("a@b.com" ++ "\n") = true :=
  trailing_newline_tolerated.2 "a@b.com" (by rw [validate_email_eq]; decide) (by decide)

/-- C10 (counterexample): appending a newline does not preserve acceptance for
every accepted string: a@b.com with one trailing newline is accepted, but with
a second newline appended it is rejected. -/
theorem trailing_newline_not_universal :
    validate_email "a@b.com\n" = true
    ∧ validate_email ("a@b.com\n" ++ "\n") = false := by
  constructor
  · rw [validate_email_eq]
    decide
  · rw [validate_email_eq]
    decide

end EduHub
